import Mathlib

/-!
Verification of the multi-server MCP client (`mcp-client/multi_server_client.py`,
with the shared qwen adapter code also present in `mcp-client/client.py`).

The development shallowly embeds the client's pure logic: Python dict/string
operations are modelled over `List` / `String`, the I/O collaborators
(filesystem, stdio transport, MCP session, model vendor API) are oracles passed
in as explicit function arguments, and each `async` method becomes a pure
function threading the client state.
-/

namespace MCP

/-! ## Python string primitives -/

/-- The whitespace characters stripped by Python `str.strip()`. -/
def isPyWs (c : Char) : Bool :=
  c = ' ' || c = '\t' || c = '\n' || c = '\r' || c = '\x0b' || c = '\x0c'

/-- `str.strip()` on a character list. -/
def pyStripList (cs : List Char) : List Char :=
  ((cs.dropWhile isPyWs).reverse.dropWhile isPyWs).reverse

/-- Python `str.strip()`. -/
def pyStrip (s : String) : String := ⟨pyStripList s.toList⟩

/-- Does `cs` start with the pattern `p`? -/
def listStartsWith : List Char → List Char → Bool
  | [], _ => true
  | _ :: _, [] => false
  | a :: ps, b :: rest => a = b && listStartsWith ps rest

/-- Python `str.startswith`. -/
def pyStartsWith (s p : String) : Bool := listStartsWith p.toList s.toList

/-- Does `cs` contain `p` as a contiguous sublist?  (Python `in` on strings.) -/
def listContainsSub (p : List Char) : List Char → Bool
  | [] => listStartsWith p []
  | c :: rest => listStartsWith p (c :: rest) || listContainsSub p rest

/-- Python `sub in s`. -/
def pyContains (s sub : String) : Bool := listContainsSub sub.toList s.toList

/-- Python `s.endswith(p)`. -/
def pyEndsWith (s p : String) : Bool :=
  listStartsWith p.toList.reverse s.toList.reverse

/-- Split at the first occurrence of pattern `p`: Python `s.split(p, 1)` when the
separator occurs, returning the part before and the part after. -/
def listSplitFirst (p : List Char) : List Char → Option (List Char × List Char)
  | [] => none
  | c :: rest =>
    if listStartsWith p (c :: rest) then some ([], (c :: rest).drop p.length)
    else
      match listSplitFirst p rest with
      | some (b, a) => some (c :: b, a)
      | none => none

/-- Python `s.split(sep)` for a single-character separator: split on every
occurrence, keeping empty parts. -/
def pySplitOnChar (sep : Char) : List Char → List (List Char)
  | [] => [[]]
  | c :: rest =>
    match pySplitOnChar sep rest with
    | [] => [[]]
    | l :: ls => if c = sep then [] :: l :: ls else (c :: l) :: ls

/-- Python `s.split('\n')`. -/
def pySplitLines (s : String) : List String :=
  (pySplitOnChar '\n' s.toList).map (fun cs => ⟨cs⟩)

/-- Python `s.split(" ", 1)`: the part before the first space, and, when a space
occurs, the remainder after it. -/
def listSplitOnceSpace : List Char → List Char × Option (List Char)
  | [] => ([], none)
  | c :: rest =>
    if c = ' ' then ([], some rest)
    else
      let (h, t) := listSplitOnceSpace rest
      (c :: h, t)

/-! ## Python values and JSON -/

/-- The opening brace character, `"{"`. -/
def lbrace : Char := Char.ofNat 123

/-- The closing brace character, `"}"`. -/
def rbrace : Char := Char.ofNat 125

/-- Python values as exchanged through `json.loads` and tool arguments:
`None`, booleans, integers, strings, lists and dicts. -/
inductive PyVal where
  | null
  | bool (b : Bool)
  | int (n : Int)
  | str (s : String)
  | list (xs : List PyVal)
  | dict (fields : List (String × PyVal))
deriving Repr, Inhabited

mutual

/-- Python `str()` of a value (as used by f-string interpolation of tool args). -/
def pyRepr : PyVal → String
  | .null => "None"
  | .bool true => "True"
  | .bool false => "False"
  | .int n => toString n
  | .str s => "\x27" ++ s ++ "\x27"
  | .list xs => "[" ++ pyReprItems xs ++ "]"
  | .dict fs => "\x7b" ++ pyReprFields fs ++ "\x7d"

/-- Comma-separated `str()` of list items. -/
def pyReprItems : List PyVal → String
  | [] => ""
  | [x] => pyRepr x
  | x :: y :: rest => pyRepr x ++ ", " ++ pyReprItems (y :: rest)

/-- Comma-separated `str()` of dict entries. -/
def pyReprFields : List (String × PyVal) → String
  | [] => ""
  | [(k, v)] => "\x27" ++ k ++ "\x27: " ++ pyRepr v
  | (k, v) :: y :: rest => "\x27" ++ k ++ "\x27: " ++ pyRepr v ++ ", " ++ pyReprFields (y :: rest)

end

/-- Modelled from the spec: `json.loads` whitespace skipping. -/
def jsonSkipWs (cs : List Char) : List Char :=
  cs.dropWhile (fun c => c = ' ' || c = '\t' || c = '\n' || c = '\r')

/-- Modelled from the spec: the body of a JSON string literal (after the opening
quote), returning the decoded characters and the rest of the input after the
closing quote.  `\\uXXXX` escapes are outside the model. -/
def jsonStringChars : List Char → Option (List Char × List Char)
  | [] => none
  | c :: rest =>
    if c = '"' then some ([], rest)
    else if c = '\\' then
      match rest with
      | [] => none
      | e :: rest2 =>
        let d : Option Char :=
          if e = '"' then some '"'
          else if e = '\\' then some '\\'
          else if e = '/' then some '/'
          else if e = 'n' then some '\n'
          else if e = 't' then some '\t'
          else if e = 'r' then some '\r'
          else if e = 'b' then some (Char.ofNat 8)
          else if e = 'f' then some (Char.ofNat 12)
          else none
        match d with
        | none => none
        | some dc =>
          match jsonStringChars rest2 with
          | none => none
          | some (s, r) => some (dc :: s, r)
    else
      match jsonStringChars rest with
      | none => none
      | some (s, r) => some (c :: s, r)

/-- Digits to a natural number. -/
def digitsToNat (ds : List Char) : Nat :=
  ds.foldl (fun a c => a * 10 + (c.toNat - 48)) 0

/-- Modelled from the spec: a JSON integer literal (the model restricts JSON
numbers to integers; a fraction or exponent makes the parse fail). -/
def jsonParseInt (cs : List Char) : Option (Int × List Char) :=
  let (neg, cs1) := match cs with | '-' :: r => (true, r) | _ => (false, cs)
  let ds := cs1.takeWhile Char.isDigit
  let rest := cs1.dropWhile Char.isDigit
  if ds.isEmpty then none
  else if (match rest with | c :: _ => c = '.' || c = 'e' || c = 'E' | [] => false) then none
  else
    let n : Int := Int.ofNat (digitsToNat ds)
    some ((if neg then -n else n), rest)

mutual

/-- Modelled from the spec: `json.loads`' recursive-descent value parser, with
fuel bounding recursion depth. -/
def jsonParseVal (fuel : Nat) (cs : List Char) : Option (PyVal × List Char) :=
  match fuel with
  | 0 => none
  | fuel + 1 =>
    match jsonSkipWs cs with
    | [] => none
    | c :: rest =>
      if c = '"' then
        match jsonStringChars rest with
        | some (s, r) => some (.str ⟨s⟩, r)
        | none => none
      else if c = lbrace then jsonParseObj fuel rest true []
      else if c = '[' then jsonParseArr fuel rest true []
      else if c = 't' then
        if listStartsWith "rue".toList rest then some (.bool true, rest.drop 3) else none
      else if c = 'f' then
        if listStartsWith "alse".toList rest then some (.bool false, rest.drop 4) else none
      else if c = 'n' then
        if listStartsWith "ull".toList rest then some (.null, rest.drop 3) else none
      else
        match jsonParseInt (c :: rest) with
        | some (n, r) => some (.int n, r)
        | none => none

/-- Modelled from the spec: JSON object members after the opening brace (or, when
`first` is false, after a comma). -/
def jsonParseObj (fuel : Nat) (cs : List Char) (first : Bool)
    (acc : List (String × PyVal)) : Option (PyVal × List Char) :=
  match fuel with
  | 0 => none
  | fuel + 1 =>
    match jsonSkipWs cs with
    | [] => none
    | c :: rest =>
      if c = rbrace && first && acc.isEmpty then some (.dict [], rest)
      else if c = '"' then
        match jsonStringChars rest with
        | none => none
        | some (k, r1) =>
          match jsonSkipWs r1 with
          | ':' :: r2 =>
            match jsonParseVal fuel r2 with
            | none => none
            | some (v, r3) =>
              match jsonSkipWs r3 with
              | ',' :: r4 => jsonParseObj fuel r4 false (acc ++ [(⟨k⟩, v)])
              | c2 :: r4 =>
                if c2 = rbrace then some (.dict (acc ++ [(⟨k⟩, v)]), r4) else none
              | [] => none
          | _ => none
      else none

/-- Modelled from the spec: JSON array items after the opening bracket (or, when
`first` is false, after a comma). -/
def jsonParseArr (fuel : Nat) (cs : List Char) (first : Bool)
    (acc : List PyVal) : Option (PyVal × List Char) :=
  match fuel with
  | 0 => none
  | fuel + 1 =>
    match jsonSkipWs cs with
    | [] => none
    | c :: rest =>
      if c = ']' && first && acc.isEmpty then some (.list [], rest)
      else
        match jsonParseVal fuel (c :: rest) with
        | none => none
        | some (v, r1) =>
          match jsonSkipWs r1 with
          | ',' :: r2 => jsonParseArr fuel r2 false (acc ++ [v])
          | ']' :: r2 => some (.list (acc ++ [v]), r2)
          | _ => none

end

/-- Modelled from the spec: Python `json.loads`.  Parses one JSON value and
requires the remaining input to be whitespace; `none` is a raised
`json.JSONDecodeError`. -/
def json_loads (s : String) : Option PyVal :=
  match jsonParseVal (s.length + 1) s.toList with
  | some (v, rest) => if (jsonSkipWs rest).isEmpty then some v else none
  | none => none

/-- The model's stand-in for the message of a `json.JSONDecodeError`. -/
def jsonDecodeErrMsg : String := "Expecting value"

/-! ## Data model (`multi_server_client.py` dataclasses and client state) -/

/-- `ServerConfig`: one entry of the configuration file's `servers` list. -/
structure ServerConfig where
  name : String
  description : String
  script_path : String
  enabled : Bool := true
  config : List (String × PyVal) := []
deriving Repr, Inhabited

/-- A tool as reported by `session.list_tools()` (name, description, inputSchema). -/
structure RemoteTool where
  name : String
  description : String
  inputSchema : PyVal
deriving Repr, Inhabited

/-- The tool dict built in `_connect_to_server` (the remote descriptor plus the
owning server's name). -/
structure ToolEntry where
  name : String
  description : String
  input_schema : PyVal
  server : String
deriving Repr, Inhabited

/-- `ServerConnection`: the per-server record stored in `self.servers` (the live
session/transport handles are represented by membership of the server's name in
`ClientState.open_sessions`). -/
structure ServerConnection where
  config : ServerConfig
  tools : List ToolEntry
deriving Repr, Inhabited

/-- The mutable state of `MultiServerMCPClient`: the `servers` dict, the
`tool_server_map` dict, and the names of servers whose transport/session
contexts currently sit un-exited in `self.exit_stack`. -/
structure ClientState where
  servers : List (String × ServerConnection)
  tool_server_map : List (String × String)
  open_sessions : List String
deriving Repr, Inhabited

/-- The state directly after `__init__`: empty dicts, empty exit stack. -/
def init_client_state : ClientState := ⟨[], [], []⟩

/-- Python dict read `d.get(k)` / `d[k]` on an insertion-ordered association list. -/
def dictGet (d : List (String × α)) (k : String) : Option α := d.lookup k

/-- Python dict write `d[k] = v`: overwrite in place, else append. -/
def dictInsert (d : List (String × α)) (k : String) (v : α) : List (String × α) :=
  if (dictGet d k).isSome then d.map (fun p => if p.1 = k then (k, v) else p)
  else d ++ [(k, v)]

/-! ## Server Connection Manager -/

/-- The I/O collaborators of `_connect_to_server`: `os.path.exists`, the
transport/session context entry (`stdio_client` + `ClientSession`; `some msg`
is a raised connection error, nothing entered on the exit stack), and the
session handshake plus tool listing (`initialize` + `list_tools`; a failure
here leaves the already-entered contexts on the exit stack). -/
structure ServerWorld where
  path_exists : String → Bool
  transport_open : ServerConfig → Option String
  session_setup : ServerConfig → Except String (List RemoteTool)

/-- `_connect_to_server`: validate the script path, enter the transport and
session contexts, list the server's tools, then store the connection and the
tool → server routing entries.  Returns the updated state and the raised
error, if any (the method re-raises every failure to its caller). -/
def _connect_to_server (w : ServerWorld) (st : ClientState) (cfg : ServerConfig) :
    ClientState × Option String :=
  if !(w.path_exists cfg.script_path) then
    (st, some ("服务器脚本不存在: " ++ cfg.script_path))
  else
    let is_python := pyEndsWith cfg.script_path ".py"
    let is_js := pyEndsWith cfg.script_path ".js"
    if !(is_python || is_js) then (st, some "服务器脚本必须是.py或.js文件")
    else
      match w.transport_open cfg with
      | some e => (st, some e)
      | none =>
        let st1 : ClientState := { st with open_sessions := st.open_sessions ++ [cfg.name] }
        match w.session_setup cfg with
        | .error e => (st1, some e)
        | .ok rtools =>
          let tools := rtools.map (fun t => ToolEntry.mk t.name t.description t.inputSchema cfg.name)
          let conn : ServerConnection := ⟨cfg, tools⟩
          let st2 : ClientState := { st1 with servers := dictInsert st1.servers cfg.name conn }
          let st3 := tools.foldl
            (fun s t => { s with tool_server_map := dictInsert s.tool_server_map t.name cfg.name })
            st2
          (st3, none)

/-- `connect_to_servers`: attempt one `_connect_to_server` per enabled config
(`asyncio.gather` with `return_exceptions=True`; the model serializes the
attempts in list order, one admissible schedule — each attempt's state updates
are a single synchronous block).  Returns the final state and the per-server
success report printed by the result loop. -/
def connect_to_servers (w : ServerWorld) (st : ClientState) (configs : List ServerConfig) :
    ClientState × List (String × Bool) :=
  (configs.filter (·.enabled)).foldl
    (fun acc cfg =>
      let r := _connect_to_server w acc.1 cfg
      (r.1, acc.2 ++ [(cfg.name, r.2.isNone)]))
    (st, [])

/-- Whether a single connection attempt for `cfg` succeeds (all of: script
exists, recognized suffix, transport contexts enter, handshake and tool list
succeed).  `_connect_to_server` succeeds exactly on these worlds. -/
def conn_ok (w : ServerWorld) (cfg : ServerConfig) : Bool :=
  w.path_exists cfg.script_path &&
  (pyEndsWith cfg.script_path ".py" || pyEndsWith cfg.script_path ".js") &&
  (w.transport_open cfg).isNone &&
  (match w.session_setup cfg with | .ok _ => true | .error _ => false)

/-- `get_all_tools`: concatenate every connected server's tool list. -/
def get_all_tools (st : ClientState) : List ToolEntry :=
  st.servers.foldl (fun acc p => acc ++ p.2.tools) []

/-! ## Tool Dispatcher (`call_tool`) -/

/-- The failures `call_tool` can raise: the two `ValueError`s of the method
itself (one per raise site) and a failure raised by the session's transport
call. -/
inductive ToolCallErr where
  | unknown_tool (tool_name : String)
  | server_not_connected (server_name : String)
  | transport_failure (msg : String)
deriving Repr

/-- Python `str(e)` for the errors of `call_tool`, as interpolated into the
annotations of `process_query`. -/
def toolCallErrMsg : ToolCallErr → String
  | .unknown_tool t => "未找到工具 " ++ t ++ " 对应的服务器"
  | .server_not_connected s => "服务器 " ++ s ++ " 未连接"
  | .transport_failure m => m

/-- The transport oracle: `session.call_tool(name, args)` of the session owned
by a given server name; the result payload is its rendered content. -/
def Transport := String → String → PyVal → Except String String

/-- One transport contact: which server's session was invoked, with which tool
name and arguments. -/
structure ToolContact where
  server : String
  tool : String
  args : PyVal
deriving Repr

/-- `call_tool`: resolve the owning server in `tool_server_map`, require it to
be a connected server, and forward through that session.  The second component
records the transport contacts made (empty when the method raises before
reaching the session).  `if not server_name:` is Python truthiness: a lookup
miss **and** a mapping to the empty string both take the unknown-tool raise. -/
def call_tool (tr : Transport) (st : ClientState) (tool_name : String) (tool_args : PyVal) :
    Except ToolCallErr String × List ToolContact :=
  match dictGet st.tool_server_map tool_name with
  | none => (.error (.unknown_tool tool_name), [])
  | some server_name =>
    if server_name = "" then (.error (.unknown_tool tool_name), [])
    else
      match dictGet st.servers server_name with
      | none => (.error (.server_not_connected server_name), [])
      | some _ =>
        match tr server_name tool_name tool_args with
        | .ok r => (.ok r, [⟨server_name, tool_name, tool_args⟩])
        | .error e => (.error (.transport_failure e), [⟨server_name, tool_name, tool_args⟩])

/-! ## Teardown (`cleanup`) -/

/-- `AsyncExitStack.aclose()`: exit every entered context in LIFO order
(attempting all of them), leaving the stack empty; re-raises the first
teardown failure encountered, per the close-failure oracle. -/
def aclose (close_err : String → Option String) (st : ClientState) :
    ClientState × Option String :=
  ({ st with open_sessions := [] }, (st.open_sessions.reverse.filterMap close_err).head?)

/-- `cleanup`: `try: await self.exit_stack.aclose() except Exception: pass` —
the teardown error from `aclose` is discarded. -/
def cleanup (close_err : String → Option String) (st : ClientState) :
    Except String ClientState :=
  match aclose close_err st with
  | (st2, _) => .ok st2

/-! ## Model Provider Adapter (`_call_model`) -/

/-- A transcript message (`{"role": ..., "content": ...}`); structured tool
result payloads are rendered to their text. -/
structure ChatMsg where
  role : String
  content : String
deriving Repr, DecidableEq

/-- The message-conversion loop of `multi_server_client._call_model` for the
qwen provider: a `tool` message becomes a `user` message with its content
prefixed by the tool-result marker; every other message passes through. -/
def multi_to_qwen_messages (messages : List ChatMsg) : List ChatMsg :=
  messages.map (fun m =>
    if m.role = "tool" then ⟨"user", "工具结果: " ++ m.content⟩ else m)

/-- The same conversion loop in `client._call_model`, whose marker is
`"Tool result: "`. -/
def client_to_qwen_messages (messages : List ChatMsg) : List ChatMsg :=
  messages.map (fun m =>
    if m.role = "tool" then ⟨"user", "Tool result: " ++ m.content⟩ else m)

/-- `tool.get('input_schema', {}).get('properties')` truthiness followed by
`list(...keys())`: the parameter names when the schema is a dict with a
non-empty dict under `properties` (a non-dict `properties` value would raise
in Python and is outside the model). -/
def schema_params (schema : PyVal) : Option (List String) :=
  match schema with
  | .dict fs =>
    match dictGet fs "properties" with
    | some (.dict ps) => if ps.isEmpty then none else some (ps.map (·.1))
    | _ => none
  | _ => none

/-- One line of the serialized tool catalog in `multi_server_client._call_model`. -/
def multi_tool_desc (t : ToolEntry) : String :=
  let base := "- " ++ t.name ++ " (来自服务器: " ++ t.server ++ "): " ++ t.description
  match schema_params t.input_schema with
  | some params => base ++ " (参数: " ++ String.intercalate ", " params ++ ")"
  | none => base

/-- The tool-instruction block of `multi_server_client._call_model`. -/
def multi_tools_info (tools : List ToolEntry) : String :=
  "可用工具:\n" ++ String.intercalate "\n" (tools.map multi_tool_desc) ++
  "\n\n要使用工具，请回复: TOOL_CALL: 工具名称 \x7b\"参数1\": \"值1\", \"参数2\": \"值2\"\x7d"

/-- One line of the serialized tool catalog in `client._call_model`. -/
def client_tool_desc (t : ToolEntry) : String :=
  let base := "- " ++ t.name ++ ": " ++ t.description
  match schema_params t.input_schema with
  | some params => base ++ " (parameters: " ++ String.intercalate ", " params ++ ")"
  | none => base

/-- The tool-instruction block of `client._call_model` (with its hard-coded
city-coordinate hints). -/
def client_tools_info (tools : List ToolEntry) : String :=
  "Available tools:\n" ++ String.intercalate "\n" (tools.map client_tool_desc) ++
  "\n\nTo use a tool, respond with: TOOL_CALL: tool_name \x7b\"param1\": \"value1\", \"param2\": \"value2\"\x7d" ++
  "\n\nNote: Common city coordinates for weather queries:" ++
  "\n- Sacramento: latitude=38.5816, longitude=-121.4944" ++
  "\n- San Francisco: latitude=37.7749, longitude=-122.4194" ++
  "\n- Los Angeles: latitude=34.0522, longitude=-118.2437" ++
  "\n- New York: latitude=40.7128, longitude=-74.0060" ++
  "\n- Detroit: latitude=42.3314, longitude=-83.0458" ++
  "\n- Beijing: latitude=39.9042, longitude=116.4074" ++
  "\nFor other cities, use approximate coordinates or ask the user to provide them."

/-- The placement of the tool-instruction block (identical in both files):
prepend it to the first message's content when that message has role `user`,
otherwise insert it as a new first user message. -/
def place_tools_info (tools_info : String) : List ChatMsg → List ChatMsg
  | [] => [⟨"user", tools_info⟩]
  | m :: rest =>
    if m.role = "user" then ⟨"user", tools_info ++ "\n\n" ++ m.content⟩ :: rest
    else ⟨"user", tools_info⟩ :: m :: rest

/-- The full qwen request body built by `multi_server_client._call_model`:
converted messages, with the tool-instruction block added when the tool list
is non-empty (`if tools:`). -/
def multi_qwen_messages (messages : List ChatMsg) (tools : List ToolEntry) : List ChatMsg :=
  let qwen_messages := multi_to_qwen_messages messages
  if tools.isEmpty then qwen_messages
  else place_tools_info (multi_tools_info tools) qwen_messages

/-- The full qwen request body built by `client._call_model`. -/
def client_qwen_messages (messages : List ChatMsg) (tools : List ToolEntry) : List ChatMsg :=
  let qwen_messages := client_to_qwen_messages messages
  if tools.isEmpty then qwen_messages
  else place_tools_info (client_tools_info tools) qwen_messages

/-- A `dashscope` response as consumed by the client: `status_code`,
`output.choices[0].message.content`, and the error `message` field. -/
structure QwenResponse where
  status_code : Nat
  content : String
  message : String
deriving Repr, DecidableEq

/-- The `Generation.call` oracle: the vendor's answer to a fully built qwen
message list (model name and max_tokens are fixed configuration absorbed into
the oracle). -/
def GenCall := List ChatMsg → QwenResponse

/-- `_call_model` for the qwen provider in `multi_server_client.py`: convert
the transcript, add the tool block, call the vendor. -/
def multi_call_model_qwen (gen : GenCall) (messages : List ChatMsg)
    (tools : List ToolEntry) : QwenResponse :=
  gen (multi_qwen_messages messages tools)

/-- A content block of an Anthropic response: `text`, or a structured
`tool_use` directive (which carries no `text` attribute). -/
inductive AContent where
  | text (text : String)
  | tool_use (name : String) (input : PyVal)
deriving Repr

/-- An Anthropic `messages.create` response. -/
structure AnthropicResponse where
  content : List AContent
deriving Repr

/-- The Anthropic oracle: `_call_model` passes messages and tool schemas
through unchanged for this provider, so the oracle consumes the transcript
directly. -/
def AnthropicProvider := List ChatMsg → List ToolEntry → AnthropicResponse

/-! ## Conversation Loop (`process_query`) -/

/-- The observable outcome of one `process_query` call: the `final_text`
segments (the return value is their `"\n"` join), how many vendor API calls
were made, and which transport contacts took place. -/
structure QueryTrace where
  final_text : List String
  provider_calls : Nat
  tool_contacts : List ToolContact
deriving Repr

/-- The return value of `process_query`: `"\n".join(final_text)`. -/
def query_output (t : QueryTrace) : String := String.intercalate "\n" t.final_text

/-- `str(e)` of the `IndexError` from `response.content[0]` on an empty
content list. -/
def indexErrMsg : String := "list index out of range"

/-- `str(e)` of the `AttributeError` from `.text` on a first content block
that is not a text block. -/
def attrErrMsg : String := "\x27ToolUseBlock\x27 object has no attribute \x27text\x27"

/-- One iteration of the Anthropic branch of `process_query`, over one content
block of the first response.  A `text` block is appended to `final_text`.  A
`tool_use` block is dispatched inside the `try`: a dispatch failure jumps to
the `except`, which appends the inline failure annotation (no follow-up
request is made); on success the annotation is appended, the tool result is
appended to the transcript as a user message (the `tool_use` block has no
`text` attribute, so the assistant append is skipped), a follow-up request is
made, and `response.content[0].text` is appended — where an empty or non-text
leading block raises inside the same `try` and lands in the `except`. -/
def anthropic_step (provider : AnthropicProvider) (tr : Transport) (st : ClientState)
    (available_tools : List ToolEntry) (acc : List ChatMsg × QueryTrace) (c : AContent) :
    List ChatMsg × QueryTrace :=
  match c with
  | .text s => (acc.1, { acc.2 with final_text := acc.2.final_text ++ [s] })
  | .tool_use tool_name tool_args =>
    let r := call_tool tr st tool_name tool_args
    match r.1 with
    | .error e =>
      (acc.1, { acc.2 with
        final_text := acc.2.final_text ++ ["工具调用失败: " ++ toolCallErrMsg e],
        tool_contacts := acc.2.tool_contacts ++ r.2 })
    | .ok result =>
      let server_name := (dictGet st.tool_server_map tool_name).getD "未知"
      let annot := "[调用服务器 " ++ server_name ++ " 的工具 " ++ tool_name ++
        "，参数: " ++ pyRepr tool_args ++ "]"
      let msgs := acc.1 ++ [⟨"user", result⟩]
      let resp2 := provider msgs available_tools
      let calls := acc.2.provider_calls + 1
      match resp2.content with
      | .text s :: _ =>
        (msgs, { final_text := acc.2.final_text ++ [annot, s],
                 provider_calls := calls,
                 tool_contacts := acc.2.tool_contacts ++ r.2 })
      | .tool_use _ _ :: _ =>
        (msgs, { final_text := acc.2.final_text ++ [annot, "工具调用失败: " ++ attrErrMsg],
                 provider_calls := calls,
                 tool_contacts := acc.2.tool_contacts ++ r.2 })
      | [] =>
        (msgs, { final_text := acc.2.final_text ++ [annot, "工具调用失败: " ++ indexErrMsg],
                 provider_calls := calls,
                 tool_contacts := acc.2.tool_contacts ++ r.2 })

/-- `process_query` for the Anthropic provider: one initial request, then the
per-block loop over the first response's content (the loop iterates the first
response's block list even though `response` is reassigned inside it). -/
def process_query_anthropic (provider : AnthropicProvider) (tr : Transport)
    (st : ClientState) (query : String) : QueryTrace :=
  let messages : List ChatMsg := [⟨"user", query⟩]
  let available_tools := get_all_tools st
  let resp := provider messages available_tools
  (resp.content.foldl (anthropic_step provider tr st available_tools)
    (messages, ⟨[], 1, []⟩)).2

/-- The first line of the response whose stripped form starts with the
sentinel (the `for` loop's first match; later sentinel lines are dead because
of the `break`). -/
def first_sentinel_line (mc : String) : Option String :=
  (pySplitLines mc).find? (fun l => pyStartsWith (pyStrip l) "TOOL_CALL:")

/-- The sentinel parse of the qwen branch:
`parts = line.strip().split("TOOL_CALL:", 1)[1].strip().split(" ", 1)`,
`tool_name = parts[0].strip()`, and arguments `json.loads(parts[1].strip())`
when a second part exists (else the empty dict).  The error carries `str(e)`
of the raised `json.JSONDecodeError`. -/
def parse_sentinel_line (line : String) : Except String (String × PyVal) :=
  match listSplitFirst "TOOL_CALL:".toList (pyStrip line).toList with
  | none => .error indexErrMsg
  | some (_, afterSentinel) =>
    let parts := listSplitOnceSpace (pyStripList afterSentinel)
    let tool_name := pyStrip ⟨parts.1⟩
    match parts.2 with
    | none => .ok (tool_name, .dict [])
    | some argChars =>
      match json_loads (pyStrip ⟨argChars⟩) with
      | some v => .ok (tool_name, v)
      | none => .error jsonDecodeErrMsg

/-- `process_query` for the qwen provider: one initial request; on a 200
response, scan for the sentinel; process only the first sentinel line inside
`try` (dispatch, transcript append, one follow-up request), where any raise —
JSON parse or dispatch — lands in the `except` that appends the parse-failure
annotation plus the original response text, and `break` ends the scan; with
no sentinel line the response text is the whole answer; a non-200 status
yields the error text. -/
def process_query_qwen (gen : GenCall) (tr : Transport) (st : ClientState)
    (query : String) : QueryTrace :=
  let messages : List ChatMsg := [⟨"user", query⟩]
  let available_tools := get_all_tools st
  let resp := multi_call_model_qwen gen messages available_tools
  if resp.status_code = 200 then
    let mc := resp.content
    if pyContains mc "TOOL_CALL:" then
      match first_sentinel_line mc with
      | none => ⟨[mc], 1, []⟩
      | some line =>
        match parse_sentinel_line line with
        | .error e => ⟨["解析工具调用时出错: " ++ e, mc], 1, []⟩
        | .ok (tool_name, tool_args) =>
          let r := call_tool tr st tool_name tool_args
          match r.1 with
          | .error e => ⟨["解析工具调用时出错: " ++ toolCallErrMsg e, mc], 1, r.2⟩
          | .ok result =>
            let server_name := (dictGet st.tool_server_map tool_name).getD "未知"
            let annot := "[调用服务器 " ++ server_name ++ " 的工具 " ++ tool_name ++
              "，参数: " ++ pyRepr tool_args ++ "]"
            let messages2 := messages ++ [⟨"assistant", mc⟩, ⟨"user", "工具结果: " ++ result⟩]
            let resp2 := multi_call_model_qwen gen messages2 available_tools
            if resp2.status_code = 200 then ⟨[annot, resp2.content], 2, r.2⟩
            else ⟨[annot], 2, r.2⟩
    else ⟨[mc], 1, []⟩
  else ⟨["错误: " ++ resp.message], 1, []⟩

/-! ## Reachable client states -/

/-- The operations a caller can run against the client after `__init__`:
`connect_to_servers` over a config list, `call_tool` (which reads but never
writes the client state), and `cleanup`. -/
inductive ClientOp where
  | connect (configs : List ServerConfig)
  | invoke (tool_name : String) (tool_args : PyVal)
  | teardown
deriving Repr

/-- Whether an operation is the teardown. -/
def ClientOp.is_teardown : ClientOp → Bool
  | .teardown => true
  | _ => false

/-- The state transition of one operation. -/
def client_step (w : ServerWorld) (close_err : String → Option String)
    (st : ClientState) : ClientOp → ClientState
  | .connect configs => (connect_to_servers w st configs).1
  | .invoke _ _ => st
  | .teardown => (aclose close_err st).1

/-- Run a sequence of operations from a starting state. -/
def client_run (w : ServerWorld) (close_err : String → Option String)
    (st : ClientState) (ops : List ClientOp) : ClientState :=
  ops.foldl (client_step w close_err) st

/-- The routing-table liveness invariant: every `tool_server_map` entry names a
server that is a key of `servers` and whose session contexts are still open on
the exit stack. -/
def routing_live (st : ClientState) : Bool :=
  st.tool_server_map.all
    (fun p => (dictGet st.servers p.2).isSome && st.open_sessions.contains p.2)

/-! ## Dict lemmas -/

theorem dictGet_nil (k : String) : dictGet ([] : List (String × α)) k = none := rfl

theorem dictGet_cons (p : String × α) (d : List (String × α)) (k : String) :
    dictGet (p :: d) k = if k = p.1 then some p.2 else dictGet d k := by
  simp only [dictGet, List.lookup]
  rcases eq_or_ne k p.1 with h | h
  · simp [h]
  · simp [h, beq_eq_false_iff_ne.mpr h]

theorem dictGet_eq_none_of_not_mem_keys {d : List (String × α)} {k : String}
    (h : k ∉ d.map Prod.fst) : dictGet d k = none := by
  induction d with
  | nil => rfl
  | cons p rest ih =>
    simp only [List.map_cons, List.mem_cons, not_or] at h
    rw [dictGet_cons, if_neg h.1]
    exact ih h.2

theorem dictGet_dictInsert_self (d : List (String × α)) (k : String) (v : α) :
    dictGet (dictInsert d k v) k = some v := by
  unfold dictInsert
  split
  case isTrue h =>
    induction d with
    | nil => simp [dictGet] at h
    | cons p rest ih =>
      rw [dictGet_cons] at h
      simp only [List.map_cons]
      rcases eq_or_ne k p.1 with hk | hk
      · rw [if_pos hk.symm, dictGet_cons, if_pos rfl]
      · rw [if_neg (Ne.symm hk), dictGet_cons, if_neg hk]
        rw [if_neg hk] at h
        exact ih h
  case isFalse h =>
    induction d with
    | nil => rw [List.nil_append, dictGet_cons, if_pos rfl]
    | cons p rest ih =>
      rw [dictGet_cons] at h
      rcases eq_or_ne k p.1 with hk | hk
      · rw [if_pos hk] at h; simp at h
      · rw [if_neg hk] at h
        rw [List.cons_append, dictGet_cons, if_neg hk]
        exact ih h

theorem dictGet_overwrite_ne (d : List (String × α)) {k k' : String} (v : α)
    (h : k' ≠ k) :
    dictGet (d.map (fun p => if p.1 = k then (k, v) else p)) k' = dictGet d k' := by
  induction d with
  | nil => rfl
  | cons p rest ih =>
    simp only [List.map_cons]
    rcases eq_or_ne p.1 k with hk | hk
    · rw [if_pos hk, dictGet_cons, dictGet_cons, if_neg h, if_neg (hk ▸ h)]
      exact ih
    · rw [if_neg hk, dictGet_cons, dictGet_cons]
      rcases eq_or_ne k' p.1 with h2 | h2
      · rw [if_pos h2, if_pos h2]
      · rw [if_neg h2, if_neg h2]
        exact ih

theorem dictGet_append_single_ne (d : List (String × α)) {k k' : String} (v : α)
    (h : k' ≠ k) : dictGet (d ++ [(k, v)]) k' = dictGet d k' := by
  induction d with
  | nil => simp [dictGet_cons, if_neg h, dictGet_nil]
  | cons p rest ih =>
    rw [List.cons_append, dictGet_cons, dictGet_cons]
    rcases eq_or_ne k' p.1 with h2 | h2
    · rw [if_pos h2, if_pos h2]
    · rw [if_neg h2, if_neg h2]
      exact ih

theorem dictGet_dictInsert_ne (d : List (String × α)) {k k' : String} (v : α)
    (h : k' ≠ k) : dictGet (dictInsert d k v) k' = dictGet d k' := by
  unfold dictInsert
  split
  · exact dictGet_overwrite_ne d v h
  · exact dictGet_append_single_ne d v h

theorem dictGet_dictInsert_isSome {d : List (String × α)} {k k' : String} {v : α}
    (h : (dictGet d k').isSome) : (dictGet (dictInsert d k v) k').isSome := by
  rcases eq_or_ne k' k with hk | hk
  · rw [hk, dictGet_dictInsert_self]; rfl
  · rw [dictGet_dictInsert_ne d v hk]; exact h

theorem mem_dictInsert {d : List (String × α)} {k : String} {v : α} {p : String × α}
    (h : p ∈ dictInsert d k v) : p ∈ d ∨ p = (k, v) := by
  unfold dictInsert at h
  split at h
  · rcases List.mem_map.mp h with ⟨q, hq, he⟩
    by_cases hqk : q.1 = k
    · right; rw [if_pos hqk] at he; exact he.symm
    · left; rw [if_neg hqk] at he; exact he ▸ hq
  · rcases List.mem_append.mp h with h1 | h1
    · exact Or.inl h1
    · right; simpa using h1

theorem dictInsert_keys_of_not_mem {d : List (String × α)} {k : String} (v : α)
    (h : k ∉ d.map Prod.fst) :
    (dictInsert d k v).map Prod.fst = d.map Prod.fst ++ [k] := by
  unfold dictInsert
  rw [dictGet_eq_none_of_not_mem_keys h]
  simp

theorem mem_fold_insert {names : List String} {n : String} {m : List (String × String)}
    {p : String × String}
    (h : p ∈ names.foldl (fun m k => dictInsert m k n) m) : p ∈ m ∨ p.2 = n := by
  induction names generalizing m with
  | nil => exact Or.inl h
  | cons a rest ih =>
    rw [List.foldl_cons] at h
    rcases ih h with h1 | h1
    · rcases mem_dictInsert h1 with h2 | h2
      · exact Or.inl h2
      · right; rw [h2]
    · exact Or.inr h1

theorem dictGet_fold_insert (names : List String) (n : String)
    (m : List (String × String)) (t : String) :
    dictGet (names.foldl (fun m k => dictInsert m k n) m) t =
      if t ∈ names then some n else dictGet m t := by
  induction names generalizing m with
  | nil => simp
  | cons a rest ih =>
    rw [List.foldl_cons, ih]
    by_cases ht : t ∈ rest
    · rw [if_pos ht, if_pos (List.mem_cons_of_mem a ht)]
    · rw [if_neg ht]
      rcases eq_or_ne t a with h2 | h2
      · rw [h2, dictGet_dictInsert_self, if_pos (List.mem_cons_self a rest)]
      · rw [dictGet_dictInsert_ne m n h2, if_neg (by simp [h2, ht])]

/-! ## Characterization of `_connect_to_server` -/

/-- The recognized-suffix check of `_connect_to_server`. -/
def script_ok (cfg : ServerConfig) : Bool :=
  pyEndsWith cfg.script_path ".py" || pyEndsWith cfg.script_path ".js"

/-- Whether the attempt gets as far as entering the transport/session contexts. -/
def transport_entered (w : ServerWorld) (cfg : ServerConfig) : Bool :=
  w.path_exists cfg.script_path && script_ok cfg && (w.transport_open cfg).isNone

/-- The annotated tool entries a successful connect stores for `cfg`. -/
def server_tools (w : ServerWorld) (cfg : ServerConfig) : List ToolEntry :=
  match w.session_setup cfg with
  | .ok rtools => rtools.map (fun t => ToolEntry.mk t.name t.description t.inputSchema cfg.name)
  | .error _ => []

/-- The error `_connect_to_server` raises for `cfg`, independent of state. -/
def connect_err (w : ServerWorld) (cfg : ServerConfig) : Option String :=
  if !(w.path_exists cfg.script_path) then some ("服务器脚本不存在: " ++ cfg.script_path)
  else if !(script_ok cfg) then some "服务器脚本必须是.py或.js文件"
  else
    match w.transport_open cfg with
    | some e => some e
    | none =>
      match w.session_setup cfg with
      | .error e => some e
      | .ok _ => none

theorem register_fold_eq (tools : List ToolEntry) (n : String) (s : ClientState) :
    tools.foldl
      (fun s t => { s with tool_server_map := dictInsert s.tool_server_map t.name n }) s =
    { s with tool_server_map :=
        tools.foldl (fun m t => dictInsert m t.name n) s.tool_server_map } := by
  induction tools generalizing s with
  | nil => rfl
  | cons t rest ih => rw [List.foldl_cons, List.foldl_cons, ih]

/-- What one connection attempt does to the client state, in closed form. -/
theorem _connect_to_server_eq (w : ServerWorld) (st : ClientState) (cfg : ServerConfig) :
    _connect_to_server w st cfg =
      ({ servers :=
           if conn_ok w cfg then dictInsert st.servers cfg.name ⟨cfg, server_tools w cfg⟩
           else st.servers,
         tool_server_map :=
           if conn_ok w cfg then
             (server_tools w cfg).foldl (fun m t => dictInsert m t.name cfg.name)
               st.tool_server_map
           else st.tool_server_map,
         open_sessions :=
           st.open_sessions ++ (if transport_entered w cfg then [cfg.name] else []) },
       connect_err w cfg) := by
  unfold _connect_to_server conn_ok connect_err transport_entered script_ok server_tools
  cases hpe : w.path_exists cfg.script_path with
  | false => simp
  | true =>
    cases hok : (pyEndsWith cfg.script_path ".py" || pyEndsWith cfg.script_path ".js") with
    | false =>
      rcases Bool.or_eq_false_iff.mp hok with ⟨h1, h2⟩
      simp [h1, h2]
    | true =>
      cases hto : w.transport_open cfg with
      | some e => simp [hok, hto]
      | none =>
        cases hss : w.session_setup cfg with
        | error e => simp [hok, hto, hss]
        | ok rtools =>
          simp only [hok, hto, hss, Bool.not_true, Bool.false_eq_true, if_false,
            Option.isNone_none, Bool.and_true, Bool.and_self, if_true]
          rw [register_fold_eq]

theorem connect_err_isNone (w : ServerWorld) (cfg : ServerConfig) :
    (connect_err w cfg).isNone = conn_ok w cfg := by
  unfold connect_err conn_ok script_ok
  cases hpe : w.path_exists cfg.script_path with
  | false => simp
  | true =>
    cases hok : (pyEndsWith cfg.script_path ".py" || pyEndsWith cfg.script_path ".js") with
    | false => simp [hok]
    | true =>
      cases hto : w.transport_open cfg with
      | some e => simp [hok, hto]
      | none =>
        cases hss : w.session_setup cfg with
        | error e => simp [hok, hto, hss]
        | ok rtools => simp [hok, hto, hss]

/-! ## Characterization of `connect_to_servers` -/

/-- The state after sequentially attempting a list of configs. -/
def connect_state (w : ServerWorld) (st : ClientState) (l : List ServerConfig) : ClientState :=
  l.foldl (fun s c => (_connect_to_server w s c).1) st

theorem connect_fold_spec (w : ServerWorld) (l : List ServerConfig) (st : ClientState)
    (acc : List (String × Bool)) :
    l.foldl (fun acc cfg =>
        let r := _connect_to_server w acc.1 cfg
        (r.1, acc.2 ++ [(cfg.name, r.2.isNone)])) (st, acc) =
      (connect_state w st l, acc ++ l.map (fun c => (c.name, conn_ok w c))) := by
  induction l generalizing st acc with
  | nil => simp [connect_state]
  | cons c rest ih =>
    rw [List.foldl_cons]
    show rest.foldl _ ((_connect_to_server w st c).1,
      acc ++ [(c.name, (_connect_to_server w st c).2.isNone)]) = _
    rw [ih]
    have h2 : (_connect_to_server w st c).2.isNone = conn_ok w c := by
      rw [_connect_to_server_eq]
      exact connect_err_isNone w c
    rw [h2]
    unfold connect_state
    rw [List.foldl_cons]
    simp

theorem connect_to_servers_eq (w : ServerWorld) (st : ClientState)
    (configs : List ServerConfig) :
    connect_to_servers w st configs =
      (connect_state w st (configs.filter (·.enabled)),
       (configs.filter (·.enabled)).map (fun c => (c.name, conn_ok w c))) := by
  unfold connect_to_servers
  rw [connect_fold_spec]
  rw [List.nil_append]

theorem connect_state_keys (w : ServerWorld) (l : List ServerConfig) (st : ClientState)
    (hnd : (l.map ServerConfig.name).Nodup)
    (hdisj : ∀ c ∈ l, c.name ∉ st.servers.map Prod.fst) :
    (connect_state w st l).servers.map Prod.fst =
      st.servers.map Prod.fst ++ (l.filter (conn_ok w)).map ServerConfig.name := by
  induction l generalizing st with
  | nil => simp [connect_state]
  | cons c rest ih =>
    have hnd2 := List.nodup_cons.mp (List.map_cons ServerConfig.name c rest ▸ hnd)
    have hstep : connect_state w st (c :: rest) =
        connect_state w ((_connect_to_server w st c).1) rest := by
      unfold connect_state; rw [List.foldl_cons]
    rw [hstep]
    have hkeys1 : ((_connect_to_server w st c).1).servers.map Prod.fst =
        st.servers.map Prod.fst ++ (if conn_ok w c then [c.name] else []) := by
      rw [_connect_to_server_eq]
      cases hc : conn_ok w c with
      | false => simp
      | true =>
        simp only [if_pos rfl]
        exact dictInsert_keys_of_not_mem _ (hdisj c (List.mem_cons_self c rest))
    have hdisj2 : ∀ c' ∈ rest, c'.name ∉ ((_connect_to_server w st c).1).servers.map Prod.fst := by
      intro c' hc'
      rw [hkeys1]
      intro hmem
      rcases List.mem_append.mp hmem with h1 | h1
      · exact hdisj c' (List.mem_cons_of_mem c hc') h1
      · have : c'.name = c.name := by
          cases hc : conn_ok w c <;> rw [hc] at h1
          · simp at h1
          · simp at h1
            exact h1
        exact hnd2.1 (this ▸ List.mem_map_of_mem ServerConfig.name hc')
    rw [ih ((_connect_to_server w st c).1) hnd2.2 hdisj2, hkeys1]
    cases hc : conn_ok w c with
    | false => simp [List.filter_cons, hc]
    | true => simp [List.filter_cons, hc]

/-! ## Claim C1 -/

/-- Claim C1: for every set of server configurations (names unique, per the
data model) in which `k` enabled servers connect successfully and `m` enabled
servers fail, `connect_to_servers` reports exactly `k` successes and `m`
failures, one failure neither aborts nor prevents the others (the outcome
reported and stored for each server depends only on that server's own
attempt), and afterwards the keys of the `servers` map are exactly the names
of the `k` servers that succeeded. -/
theorem connect_reports_and_connected_set (w : ServerWorld) (configs : List ServerConfig)
    (hnd : ((configs.filter (fun c => c.enabled)).map ServerConfig.name).Nodup) :
    (connect_to_servers w init_client_state configs).2 =
      (configs.filter (fun c => c.enabled)).map (fun c => (c.name, conn_ok w c)) ∧
    ((connect_to_servers w init_client_state configs).2.filter (fun p => p.2)).length =
      ((configs.filter (fun c => c.enabled)).filter (conn_ok w)).length ∧
    ((connect_to_servers w init_client_state configs).2.filter (fun p => !p.2)).length =
      ((configs.filter (fun c => c.enabled)).filter (fun c => !conn_ok w c)).length ∧
    (connect_to_servers w init_client_state configs).1.servers.map Prod.fst =
      ((configs.filter (fun c => c.enabled)).filter (conn_ok w)).map ServerConfig.name := by
  rw [connect_to_servers_eq]
  refine ⟨rfl, ?_, ?_, ?_⟩
  · rw [List.filter_map, List.length_map]
    congr 1
  · rw [List.filter_map, List.length_map]
    congr 1
  · rw [connect_state_keys w _ init_client_state hnd (by intro c _; simp [init_client_state])]
    simp [init_client_state]

/-- A concrete world for the C1 witness: `calc.py` and `text.py` exist, the
server named `textp` refuses the transport, every other handshake succeeds. -/
def w_c1 : ServerWorld :=
  ⟨fun p => p == "calc.py" || p == "text.py",
   fun c => if c.name == "textp" then some "连接失败" else none,
   fun _ => .ok [⟨"add", "加法", .dict []⟩]⟩

/-- The C1 witness configs: two enabled servers (one connectable, one failing)
and one disabled server. -/
def cfgs_c1 : List ServerConfig :=
  [⟨"calc", "计算", "calc.py", true, []⟩,
   ⟨"textp", "文本", "text.py", true, []⟩,
   ⟨"off", "停用", "calc.py", false, []⟩]

/-- Witness for C1 at a concrete world: one success, one failure, one disabled. -/
theorem connect_reports_and_connected_set_witness :
    ((cfgs_c1.filter (fun c => c.enabled)).map ServerConfig.name).Nodup ∧
    ((connect_to_servers w_c1 init_client_state cfgs_c1).2 =
      (cfgs_c1.filter (fun c => c.enabled)).map (fun c => (c.name, conn_ok w_c1 c)) ∧
    ((connect_to_servers w_c1 init_client_state cfgs_c1).2.filter (fun p => p.2)).length =
      ((cfgs_c1.filter (fun c => c.enabled)).filter (conn_ok w_c1)).length ∧
    ((connect_to_servers w_c1 init_client_state cfgs_c1).2.filter (fun p => !p.2)).length =
      ((cfgs_c1.filter (fun c => c.enabled)).filter (fun c => !conn_ok w_c1 c)).length ∧
    (connect_to_servers w_c1 init_client_state cfgs_c1).1.servers.map Prod.fst =
      ((cfgs_c1.filter (fun c => c.enabled)).filter (conn_ok w_c1)).map ServerConfig.name) :=
  ⟨by decide, connect_reports_and_connected_set w_c1 cfgs_c1 (by decide)⟩

/-! ## Claim C3 -/

/-- Claim C3 (amended): when servers `A` then `B` both register a tool named
`t`, the routing table afterwards maps `t` to the last registrant `B`
(overwrite semantics), and — provided `B`'s name is non-empty — dispatching
`t` contacts `B`'s session.  (A last registrant named `""` still owns the
routing entry, but dispatch then raises unknown-tool without contacting any
session; see the counterexample.) -/
theorem duplicate_tool_routes_to_last (w : ServerWorld) (tr : Transport)
    (A B : ServerConfig) (t : String) (args : PyVal)
    (hAe : A.enabled = true) (hBe : B.enabled = true)
    (hA : conn_ok w A = true) (hB : conn_ok w B = true)
    (htA : t ∈ (server_tools w A).map ToolEntry.name)
    (htB : t ∈ (server_tools w B).map ToolEntry.name)
    (hBn : B.name ≠ "") :
    dictGet (connect_to_servers w init_client_state [A, B]).1.tool_server_map t =
      some B.name ∧
    (call_tool tr (connect_to_servers w init_client_state [A, B]).1 t args).2 =
      [⟨B.name, t, args⟩] := by
  rw [connect_to_servers_eq]
  have hfil : [A, B].filter (fun c => c.enabled) = [A, B] := by
    simp [List.filter_cons, hAe, hBe]
  rw [hfil]
  have hstate : connect_state w init_client_state [A, B] =
      (_connect_to_server w ((_connect_to_server w init_client_state A).1) B).1 := by
    unfold connect_state
    rw [List.foldl_cons, List.foldl_cons, List.foldl_nil]
  rw [hstate, _connect_to_server_eq, _connect_to_server_eq]
  simp only [hA, hB, eq_self_iff_true, if_true]
  have hmap : dictGet
      ((server_tools w B).foldl (fun m t => dictInsert m t.name B.name)
        ((server_tools w A).foldl (fun m t => dictInsert m t.name A.name)
          init_client_state.tool_server_map)) t = some B.name := by
    rw [← List.foldl_map ToolEntry.name (fun m k => dictInsert m k B.name),
      dictGet_fold_insert, if_pos htB]
  constructor
  · exact hmap
  · unfold call_tool
    rw [hmap]
    simp only [if_neg hBn]
    rw [dictGet_dictInsert_self]
    cases tr B.name t args <;> rfl

/-- A concrete world for the C3 witness: both servers expose a tool `foo`. -/
def w_c3 : ServerWorld :=
  ⟨fun _ => true, fun _ => none, fun _ => .ok [⟨"foo", "示例工具", .dict []⟩]⟩

/-- Server `A` of the C3 witness. -/
def cfg_c3A : ServerConfig := ⟨"alpha", "第一个", "a.py", true, []⟩

/-- Server `B` of the C3 witness. -/
def cfg_c3B : ServerConfig := ⟨"beta", "第二个", "b.py", true, []⟩

/-- A transport whose every call succeeds, for witnesses. -/
def tr_ok : Transport := fun _ _ _ => .ok "ok"

/-- Witness for C3: `foo` registered by `alpha` then `beta` routes to `beta`. -/
theorem duplicate_tool_routes_to_last_witness :
    dictGet (connect_to_servers w_c3 init_client_state [cfg_c3A, cfg_c3B]).1.tool_server_map
        "foo" = some "beta" ∧
    (call_tool tr_ok (connect_to_servers w_c3 init_client_state [cfg_c3A, cfg_c3B]).1
        "foo" (.dict [])).2 = [⟨"beta", "foo", .dict []⟩] :=
  duplicate_tool_routes_to_last w_c3 tr_ok cfg_c3A cfg_c3B "foo" (.dict [])
    rfl rfl rfl rfl (by simp [server_tools, w_c3]) (by simp [server_tools, w_c3])
    (by decide)

/-- A last registrant whose name is the empty string. -/
def cfg_c3E : ServerConfig := ⟨"", "空名字", "e.py", true, []⟩

/-- Counterexample for C3 as stated: when the last registrant of `foo` is the
server named `""`, the routing table does map `foo` to it (and it is a
connected server), but dispatching `foo` does not route to its session — it
raises the unknown-tool error with no transport contact, because `call_tool`
treats the empty mapped name as missing (`if not server_name:`). -/
theorem duplicate_tool_empty_last_name_counterexample :
    dictGet (connect_to_servers w_c3 init_client_state
      [cfg_c3A, cfg_c3E]).1.tool_server_map "foo" = some "" ∧
    (dictGet (connect_to_servers w_c3 init_client_state
      [cfg_c3A, cfg_c3E]).1.servers "").isSome = true ∧
    call_tool tr_ok (connect_to_servers w_c3 init_client_state
      [cfg_c3A, cfg_c3E]).1 "foo" (.dict []) =
      (.error (.unknown_tool "foo"), []) :=
  ⟨rfl, rfl, rfl⟩

/-! ## Claim C4 -/

/-- Claim C4 (amended): an unmapped tool name always fails with the
unknown-tool `ValueError` without any transport contact; a name mapped to the
empty server name also takes the unknown-tool raise (Python
`if not server_name:` treats `""` as missing); a name mapped to a non-empty
server name absent from `servers` fails with the distinct
server-not-connected `ValueError`, again without any transport contact.  The
transport oracle is universally quantified: no branch below consults it. -/
theorem call_tool_resolution_failures (tr : Transport) (st : ClientState)
    (tool_name : String) (args : PyVal) :
    (dictGet st.tool_server_map tool_name = none →
      call_tool tr st tool_name args = (.error (.unknown_tool tool_name), [])) ∧
    (dictGet st.tool_server_map tool_name = some "" →
      call_tool tr st tool_name args = (.error (.unknown_tool tool_name), [])) ∧
    (∀ sname, dictGet st.tool_server_map tool_name = some sname → sname ≠ "" →
      dictGet st.servers sname = none →
      call_tool tr st tool_name args = (.error (.server_not_connected sname), [])) := by
  refine ⟨?_, ?_, ?_⟩
  · intro h
    unfold call_tool
    rw [h]
  · intro h
    unfold call_tool
    rw [h]
    simp
  · intro sname h hne hsv
    unfold call_tool
    rw [h]
    simp only [if_neg hne]
    rw [hsv]

/-- A state whose routing table maps `ghost` to the empty server name, the
Python-truthiness edge of `call_tool`. -/
def st_c4 : ClientState := ⟨[], [("ghost", "")], []⟩

/-- Counterexample for C4 as stated: `ghost` is mapped (to `""`) and the
mapped server is not a key of `servers`, yet `call_tool` raises the
unknown-tool error, not the server-unavailable one. -/
theorem call_tool_empty_name_counterexample :
    dictGet st_c4.tool_server_map "ghost" = some "" ∧
    dictGet st_c4.servers "" = none ∧
    call_tool tr_ok st_c4 "ghost" (.dict []) =
      (.error (.unknown_tool "ghost"), []) :=
  ⟨rfl, rfl, rfl⟩

/-- A state mapping `lost` to the (non-empty, unconnected) server `calc`. -/
def st_c4w : ClientState := ⟨[], [("lost", "calc")], []⟩

/-- Witness for the amended C4: an unmapped name and a mapped-but-unconnected
name produce the two distinct errors, with no transport contact. -/
theorem call_tool_resolution_failures_witness :
    call_tool tr_ok st_c4w "nope" (.dict []) =
      (.error (.unknown_tool "nope"), []) ∧
    call_tool tr_ok st_c4w "lost" (.dict []) =
      (.error (.server_not_connected "calc"), []) :=
  ⟨(call_tool_resolution_failures tr_ok st_c4w "nope" (.dict [])).1 rfl,
   (call_tool_resolution_failures tr_ok st_c4w "lost" (.dict [])).2.2 "calc" rfl
     (by decide) rfl⟩

/-! ## Claim C9 -/

/-- Claim C9: `cleanup` never propagates an exception (any `aclose` failure is
swallowed by its bare `except`), a second teardown is a no-op that raises
nothing (the exit stack is already empty), and it is safe when connect was
never invoked. -/
theorem cleanup_idempotent_and_swallows (close_err close_err2 : String → Option String)
    (st : ClientState) :
    cleanup close_err st = .ok (aclose close_err st).1 ∧
    aclose close_err2 ((aclose close_err st).1) = ((aclose close_err st).1, none) ∧
    cleanup close_err2 ((aclose close_err st).1) = .ok ((aclose close_err st).1) ∧
    cleanup close_err init_client_state = .ok init_client_state :=
  ⟨rfl, rfl, rfl, rfl⟩

/-! ## Claim C8 -/

theorem conn_ok_transport_entered {w : ServerWorld} {cfg : ServerConfig}
    (h : conn_ok w cfg = true) : transport_entered w cfg = true := by
  unfold conn_ok at h
  unfold transport_entered script_ok
  rcases Bool.and_eq_true_iff.mp h with ⟨h1, _⟩
  rcases Bool.and_eq_true_iff.mp h1 with ⟨h2, h3⟩
  rcases Bool.and_eq_true_iff.mp h2 with ⟨h4, h5⟩
  rw [h4, h5, h3]
  rfl

theorem routing_live_extend_open {servers : List (String × ServerConnection)}
    {m : List (String × String)} {o1 : List String} (o2 : List String)
    (h : routing_live ⟨servers, m, o1⟩ = true) :
    routing_live ⟨servers, m, o1 ++ o2⟩ = true := by
  rw [routing_live, List.all_eq_true] at *
  intro p hp
  rcases Bool.and_eq_true_iff.mp (h p hp) with ⟨h1, h2⟩
  refine Bool.and_eq_true_iff.mpr ⟨h1, ?_⟩
  exact List.elem_eq_true_of_mem (List.mem_append_left o2 (List.mem_of_elem_eq_true h2))

theorem routing_live_connect (w : ServerWorld) (st : ClientState) (cfg : ServerConfig)
    (h : routing_live st = true) :
    routing_live (_connect_to_server w st cfg).1 = true := by
  rw [_connect_to_server_eq]
  cases hc : conn_ok w cfg with
  | false =>
    simp only [hc, Bool.false_eq_true, if_false]
    exact routing_live_extend_open _ h
  | true =>
    simp only [hc, if_true]
    rw [conn_ok_transport_entered hc]
    simp only [if_true]
    rw [routing_live, List.all_eq_true]
    intro p hp
    simp only at hp
    rw [← List.foldl_map ToolEntry.name (fun m k => dictInsert m k cfg.name)] at hp
    rcases mem_fold_insert hp with hold | hnew
    · rw [routing_live, List.all_eq_true] at h
      rcases Bool.and_eq_true_iff.mp (h p hold) with ⟨h1, h2⟩
      refine Bool.and_eq_true_iff.mpr ⟨?_, ?_⟩
      · exact dictGet_dictInsert_isSome h1
      · exact List.elem_eq_true_of_mem
          (List.mem_append_left _ (List.mem_of_elem_eq_true h2))
    · refine Bool.and_eq_true_iff.mpr ⟨?_, ?_⟩
      · rw [hnew, dictGet_dictInsert_self]
        rfl
      · rw [hnew]
        exact List.elem_eq_true_of_mem
          (List.mem_append_right _ (List.mem_singleton.mpr rfl))

theorem routing_live_connect_state (w : ServerWorld) (l : List ServerConfig)
    (st : ClientState) (h : routing_live st = true) :
    routing_live (connect_state w st l) = true := by
  induction l generalizing st with
  | nil => exact h
  | cons c rest ih =>
    unfold connect_state
    rw [List.foldl_cons]
    exact ih _ (routing_live_connect w st c h)

/-- Claim C8 (amended): in every state reachable from `__init__` by
`connect_to_servers` and `call_tool` operations — `cleanup` excluded — every
routing-table entry references a live connection: its server is a key of
`servers` whose session contexts are still open.  (`cleanup` closes the
sessions but clears neither `servers` nor `tool_server_map`, so the invariant
does not survive teardown; see the counterexample.) -/
theorem routing_live_reachable_without_teardown (w : ServerWorld)
    (close_err : String → Option String) (ops : List ClientOp)
    (h : ∀ op ∈ ops, op.is_teardown = false) :
    routing_live (client_run w close_err init_client_state ops) = true := by
  have hstep : ∀ st op, op.is_teardown = false → routing_live st = true →
      routing_live (client_step w close_err st op) = true := by
    intro st op hop hlive
    cases op with
    | connect configs =>
      show routing_live (connect_to_servers w st configs).1 = true
      rw [connect_to_servers_eq]
      exact routing_live_connect_state w _ st hlive
    | invoke n a => exact hlive
    | teardown => simp [ClientOp.is_teardown] at hop
  have hrun : ∀ (l : List ClientOp) (st : ClientState),
      (∀ op ∈ l, op.is_teardown = false) → routing_live st = true →
      routing_live (l.foldl (client_step w close_err) st) = true := by
    intro l
    induction l with
    | nil => intro st _ hlive; exact hlive
    | cons op rest ih =>
      intro st hl hlive
      rw [List.foldl_cons]
      exact ih _ (fun o ho => hl o (List.mem_cons_of_mem op ho))
        (hstep st op (hl op (List.mem_cons_self op rest)) hlive)
  exact hrun ops init_client_state h rfl

/-- The world of the C8 scenario: every path exists, transports open, and the
single server exposes one tool `add`. -/
def w_c8 : ServerWorld :=
  ⟨fun _ => true, fun _ => none, fun _ => .ok [⟨"add", "加法", .dict []⟩]⟩

/-- The config of the C8 scenario. -/
def cfg_c8 : ServerConfig := ⟨"calc", "计算", "calc.py", true, []⟩

/-- Counterexample for C8 as stated: after a successful connect followed by
`cleanup`, the routing table still maps `add` to `calc` and `servers` still
holds the entry, but the session contexts are closed — the entry no longer
references a live connection. -/
theorem routing_live_after_teardown_counterexample :
    routing_live (client_run w_c8 (fun _ => none) init_client_state
      [.connect [cfg_c8], .teardown]) = false ∧
    (client_run w_c8 (fun _ => none) init_client_state
      [.connect [cfg_c8], .teardown]).tool_server_map = [("add", "calc")] ∧
    (client_run w_c8 (fun _ => none) init_client_state
      [.connect [cfg_c8], .teardown]).open_sessions = [] :=
  ⟨rfl, rfl, rfl⟩

/-- Witness for the amended C8: a teardown-free run of a connect and an
invocation keeps the invariant. -/
theorem routing_live_reachable_without_teardown_witness :
    routing_live (client_run w_c8 (fun _ => none) init_client_state
      [.connect [cfg_c8], .invoke "add" (.dict [])]) = true :=
  routing_live_reachable_without_teardown w_c8 (fun _ => none)
    [.connect [cfg_c8], .invoke "add" (.dict [])]
    (by decide)

/-! ## Conversation-loop helpers -/

/-- Whether a content block is a structured tool-call directive. -/
def AContent.is_tool_use : AContent → Bool
  | .text _ => false
  | .tool_use _ _ => true

/-- The text of a text block. -/
def AContent.textOf : AContent → Option String
  | .text s => some s
  | .tool_use _ _ => none

/-- Whether a block is a `tool_use` whose dispatch succeeds in state `st`. -/
def dispatch_ok (tr : Transport) (st : ClientState) : AContent → Bool
  | .text _ => false
  | .tool_use n a =>
    match (call_tool tr st n a).1 with
    | .ok _ => true
    | .error _ => false

theorem call_tool_contacts_length (tr : Transport) (st : ClientState)
    (n : String) (a : PyVal) : (call_tool tr st n a).2.length ≤ 1 := by
  unfold call_tool
  cases dictGet st.tool_server_map n with
  | none => simp
  | some sname =>
    by_cases h : sname = ""
    · simp [h]
    · simp only [if_neg h]
      cases dictGet st.servers sname with
      | none => simp
      | some conn => cases tr sname n a <;> simp

theorem call_tool_contacts_shape (tr : Transport) (st : ClientState)
    (n : String) (a : PyVal) :
    ∀ e ∈ (call_tool tr st n a).2, e.tool = n ∧ e.args = a := by
  unfold call_tool
  cases dictGet st.tool_server_map n with
  | none => simp
  | some sname =>
    by_cases h : sname = ""
    · simp [h]
    · simp only [if_neg h]
      cases dictGet st.servers sname with
      | none => simp
      | some conn =>
        cases tr sname n a <;> intro e he <;> simp at he <;> simp [he]

theorem anthropic_fold_texts (provider : AnthropicProvider) (tr : Transport)
    (st : ClientState) (tools : List ToolEntry) (blocks : List AContent)
    (msgs : List ChatMsg) (t0 : QueryTrace)
    (h : ∀ c ∈ blocks, c.is_tool_use = false) :
    blocks.foldl (anthropic_step provider tr st tools) (msgs, t0) =
      (msgs, { t0 with final_text := t0.final_text ++ blocks.filterMap AContent.textOf }) := by
  induction blocks generalizing msgs t0 with
  | nil => simp
  | cons c rest ih =>
    cases c with
    | tool_use n a =>
      have := h _ (List.mem_cons_self _ rest)
      simp [AContent.is_tool_use] at this
    | text s =>
      rw [List.foldl_cons]
      show rest.foldl _ (msgs, { t0 with final_text := t0.final_text ++ [s] }) = _
      rw [ih _ _ (fun c hc => h c (List.mem_cons_of_mem _ hc))]
      simp [AContent.textOf]

theorem anthropic_step_tool_use_error (provider : AnthropicProvider) (tr : Transport)
    (st : ClientState) (tools : List ToolEntry) (msgs : List ChatMsg) (t0 : QueryTrace)
    {n : String} {a : PyVal} {e : ToolCallErr}
    (hr : (call_tool tr st n a).1 = .error e) :
    anthropic_step provider tr st tools (msgs, t0) (.tool_use n a) =
      (msgs, { t0 with
        final_text := t0.final_text ++ ["工具调用失败: " ++ toolCallErrMsg e],
        tool_contacts := t0.tool_contacts ++ (call_tool tr st n a).2 }) := by
  simp only [anthropic_step]
  rw [hr]

theorem anthropic_step_tool_use_ok (provider : AnthropicProvider) (tr : Transport)
    (st : ClientState) (tools : List ToolEntry) (msgs : List ChatMsg) (t0 : QueryTrace)
    {n : String} {a : PyVal} {result : String}
    (hr : (call_tool tr st n a).1 = .ok result) :
    ∃ ft, anthropic_step provider tr st tools (msgs, t0) (.tool_use n a) =
      (msgs ++ [⟨"user", result⟩],
       ⟨t0.final_text ++ ft, t0.provider_calls + 1,
        t0.tool_contacts ++ (call_tool tr st n a).2⟩) := by
  simp only [anthropic_step]
  rw [hr]
  dsimp only
  cases (provider (msgs ++ [⟨"user", result⟩]) tools).content with
  | nil => exact ⟨_, rfl⟩
  | cons c rest =>
    cases c with
    | text s => exact ⟨_, rfl⟩
    | tool_use n2 a2 => exact ⟨_, rfl⟩

theorem anthropic_fold_calls (provider : AnthropicProvider) (tr : Transport)
    (st : ClientState) (tools : List ToolEntry) (blocks : List AContent)
    (msgs : List ChatMsg) (t0 : QueryTrace) :
    (blocks.foldl (anthropic_step provider tr st tools) (msgs, t0)).2.provider_calls =
      t0.provider_calls + (blocks.filter (dispatch_ok tr st)).length := by
  induction blocks generalizing msgs t0 with
  | nil => simp
  | cons c rest ih =>
    rw [List.foldl_cons, List.filter_cons]
    cases c with
    | text s =>
      show (rest.foldl _ (msgs,
        { t0 with final_text := t0.final_text ++ [s] })).2.provider_calls = _
      rw [ih]
      simp [dispatch_ok]
    | tool_use n a =>
      cases hr : (call_tool tr st n a).1 with
      | error e =>
        have hd : dispatch_ok tr st (.tool_use n a) = false := by
          simp only [dispatch_ok]
          rw [hr]
        rw [anthropic_step_tool_use_error provider tr st tools msgs t0 hr, ih, hd]
        simp
      | ok result =>
        obtain ⟨ft, hstep⟩ := anthropic_step_tool_use_ok provider tr st tools msgs t0 hr
        have hd : dispatch_ok tr st (.tool_use n a) = true := by
          simp only [dispatch_ok]
          rw [hr]
        rw [hstep, ih, hd]
        simp only [if_true, List.length_cons]
        omega

/-! ## Claim C7 -/

/-- Claim C7: a provider response with zero tool invocations (no `tool_use`
block for the native strategy; no sentinel line for the text-protocol
strategy, with a 200 status) makes `process_query` terminate after exactly one
provider call, return the response's text content unchanged, and contact no
tool transport. -/
theorem no_tool_call_single_round (provider : AnthropicProvider) (gen : GenCall)
    (tr : Transport) (st : ClientState) (query : String)
    (hA : ∀ c ∈ (provider [⟨"user", query⟩] (get_all_tools st)).content,
      c.is_tool_use = false)
    (h200 : (multi_call_model_qwen gen [⟨"user", query⟩] (get_all_tools st)).status_code = 200)
    (hq : ∀ l ∈ pySplitLines (multi_call_model_qwen gen [⟨"user", query⟩]
        (get_all_tools st)).content,
      pyStartsWith (pyStrip l) "TOOL_CALL:" = false) :
    process_query_anthropic provider tr st query =
      ⟨(provider [⟨"user", query⟩] (get_all_tools st)).content.filterMap AContent.textOf,
        1, []⟩ ∧
    process_query_qwen gen tr st query =
      ⟨[(multi_call_model_qwen gen [⟨"user", query⟩] (get_all_tools st)).content], 1, []⟩ := by
  constructor
  · show ((provider [⟨"user", query⟩] (get_all_tools st)).content.foldl
        (anthropic_step provider tr st (get_all_tools st))
        ([⟨"user", query⟩], ⟨[], 1, []⟩)).2 = _
    rw [anthropic_fold_texts provider tr st _ _ _ _ hA]
    rfl
  · unfold process_query_qwen
    simp only [h200, if_pos rfl, eq_self_iff_true, if_true]
    have hfind : first_sentinel_line
        (multi_call_model_qwen gen [⟨"user", query⟩] (get_all_tools st)).content = none := by
      unfold first_sentinel_line
      rw [List.find?_eq_none]
      intro l hl
      rw [hq l hl]
      simp
    cases hcont : pyContains
        (multi_call_model_qwen gen [⟨"user", query⟩] (get_all_tools st)).content "TOOL_CALL:" with
    | false => simp [hcont]
    | true => simp [hcont, hfind]

/-- The Anthropic oracle for the C7 witness: a pure-text response. -/
def prov_c7 : AnthropicProvider := fun _ _ => ⟨[.text "你好！"]⟩

/-- The qwen oracle for the C7 witness: a 200 response with no sentinel. -/
def gen_c7 : GenCall := fun _ => ⟨200, "你好！有什么可以帮你？", ""⟩

/-- Witness for C7 at concrete single-answer oracles. -/
theorem no_tool_call_single_round_witness :
    process_query_anthropic prov_c7 tr_ok init_client_state "hi" =
      ⟨["你好！"], 1, []⟩ ∧
    process_query_qwen gen_c7 tr_ok init_client_state "hi" =
      ⟨["你好！有什么可以帮你？"], 1, []⟩ :=
  no_tool_call_single_round prov_c7 gen_c7 tr_ok init_client_state "hi"
    (by decide) rfl (by decide)

/-! ## Claim C2 -/

/-- The config of the connected `calc` server in the C2 scenario. -/
def cfg_c2 : ServerConfig := ⟨"calc", "计算器", "calc.py", true, []⟩

/-- The `add` tool of the C2 scenario. -/
def tool_c2 : ToolEntry :=
  ⟨"add", "加法", .dict [("properties", .dict [("a", .dict []), ("b", .dict [])])], "calc"⟩

/-- A client state with `calc` connected and `add` routed to it. -/
def st_c2 : ClientState := ⟨[("calc", ⟨cfg_c2, [tool_c2]⟩)], [("add", "calc")], ["calc"]⟩

/-- The response text of the spec's C2 example:
`"I will help.\nTOOL_CALL: add {"a": 1, "b": 2}\nextra"`. -/
def c2_response_text : String := "I will help.\nTOOL_CALL: add \x7b\"a\": 1, \"b\": 2\x7d\nextra"

/-- The qwen oracle of the C2 example: first call answers with the example
text, the follow-up call answers `OK`. -/
def gen_c2 : GenCall := fun ms =>
  if ms.length ≤ 1 then ⟨200, c2_response_text, ""⟩ else ⟨200, "OK", ""⟩

/-- Claim C2: on the example response the text-protocol parser extracts tool
`add` with arguments `{a: 1, b: 2}` and ignores the `extra` line (exactly that
one invocation reaches the transport); and universally, at most one tool
invocation is made per turn, and every invocation made comes from the first
sentinel line. -/
theorem text_protocol_first_sentinel_only :
    (process_query_qwen gen_c2 tr_ok st_c2 "请计算").tool_contacts =
      [⟨"calc", "add", .dict [("a", .int 1), ("b", .int 2)]⟩] ∧
    (process_query_qwen gen_c2 tr_ok st_c2 "请计算").provider_calls = 2 ∧
    first_sentinel_line c2_response_text =
      some "TOOL_CALL: add \x7b\"a\": 1, \"b\": 2\x7d" ∧
    parse_sentinel_line "TOOL_CALL: add \x7b\"a\": 1, \"b\": 2\x7d" =
      .ok ("add", .dict [("a", .int 1), ("b", .int 2)]) ∧
    (∀ gen tr st q, (process_query_qwen gen tr st q).tool_contacts.length ≤ 1) ∧
    (∀ gen tr st q line,
      first_sentinel_line
        (multi_call_model_qwen gen [⟨"user", q⟩] (get_all_tools st)).content = some line →
      ∀ e ∈ (process_query_qwen gen tr st q).tool_contacts,
        parse_sentinel_line line = .ok (e.tool, e.args)) := by
  refine ⟨rfl, rfl, rfl, rfl, ?_, ?_⟩
  · intro gen tr st q
    simp only [process_query_qwen]
    split
    · split
      · split
        · simp
        · split
          · simp
          · split
            · simp [call_tool_contacts_length]
            · split <;> simp [call_tool_contacts_length]
      · simp
    · simp
  · intro gen tr st q line hfs e he
    simp only [process_query_qwen] at he
    split at he
    · split at he
      · rw [hfs] at he
        split at he
        case _ heq => simp at heq
        case _ line2 heq =>
          have hl2 : line2 = line := (Option.some_inj.mp heq).symm
          subst hl2
          split at he
          case _ => simp at he
          case _ n a hparse =>
            split at he
            case _ err hcall =>
              rcases call_tool_contacts_shape tr st n a e he with ⟨h1, h2⟩
              rw [h1, h2]
              exact hparse
            case _ result hcall =>
              split at he <;>
              · rcases call_tool_contacts_shape tr st n a e he with ⟨h1, h2⟩
                rw [h1, h2]
                exact hparse
      · simp at he
    · simp at he

/-- Witness for C2's universal parts at the concrete C2 scenario. -/
theorem text_protocol_first_sentinel_only_witness :
    (process_query_qwen gen_c2 tr_ok st_c2 "请计算").tool_contacts.length ≤ 1 ∧
    (∀ e ∈ (process_query_qwen gen_c2 tr_ok st_c2 "请计算").tool_contacts,
      parse_sentinel_line "TOOL_CALL: add \x7b\"a\": 1, \"b\": 2\x7d" =
        .ok (e.tool, e.args)) :=
  ⟨(text_protocol_first_sentinel_only).2.2.2.2.1 gen_c2 tr_ok st_c2 "请计算",
   (text_protocol_first_sentinel_only).2.2.2.2.2 gen_c2 tr_ok st_c2 "请计算"
     "TOOL_CALL: add \x7b\"a\": 1, \"b\": 2\x7d" rfl⟩

/-! ## Claim C6 -/

/-- The qwen oracle of the C6 counterexample: a sentinel line whose argument
portion `{bad` is malformed JSON. -/
def gen_c6 : GenCall := fun _ => ⟨200, "TOOL_CALL: add \x7bbad", ""⟩

/-- Counterexample for C6 as stated: on malformed JSON the turn makes **no**
tool invocation at all — the empty contact list, although `add` is registered
and dispatchable in `st_c2` — because `json.loads` raises before
`call_tool` is reached; the turn is annotated instead.  (The claim said an
empty-argument invocation is made.) -/
theorem malformed_json_no_invocation_counterexample :
    process_query_qwen gen_c6 tr_ok st_c2 "请计算" =
      ⟨["解析工具调用时出错: " ++ jsonDecodeErrMsg, "TOOL_CALL: add \x7bbad"], 1, []⟩ ∧
    dictGet st_c2.tool_server_map "add" = some "calc" :=
  ⟨rfl, rfl⟩

/-- Claim C6 (amended): a sentinel line whose argument portion is malformed
JSON yields **no** tool invocation; the raised parse error is caught and
converted into a recoverable annotation, the original response text is
preserved in the output, exactly one provider call is made, and no exception
leaves `process_query`.  The empty argument object applies only when the
argument portion is absent (no space-separated remainder after the tool
name), in which case the invocation proceeds with `{}`. -/
theorem malformed_json_annotated_not_raised (gen : GenCall) (tr : Transport)
    (st : ClientState) (q : String) (line : String) (e : String)
    (h200 : (multi_call_model_qwen gen [⟨"user", q⟩] (get_all_tools st)).status_code = 200)
    (hcont : pyContains
      (multi_call_model_qwen gen [⟨"user", q⟩] (get_all_tools st)).content "TOOL_CALL:" = true)
    (hline : first_sentinel_line
      (multi_call_model_qwen gen [⟨"user", q⟩] (get_all_tools st)).content = some line)
    (hparse : parse_sentinel_line line = .error e) :
    process_query_qwen gen tr st q =
      ⟨["解析工具调用时出错: " ++ e,
        (multi_call_model_qwen gen [⟨"user", q⟩] (get_all_tools st)).content], 1, []⟩ ∧
    (∀ l b a, listSplitFirst "TOOL_CALL:".toList (pyStrip l).toList = some (b, a) →
      (listSplitOnceSpace (pyStripList a)).2 = none →
      parse_sentinel_line l =
        .ok (pyStrip ⟨(listSplitOnceSpace (pyStripList a)).1⟩, .dict [])) := by
  constructor
  · simp only [process_query_qwen]
    rw [if_pos h200, if_pos hcont, hline]
    dsimp only
    rw [hparse]
  · intro l b a hsplit hrest
    unfold parse_sentinel_line
    rw [hsplit]
    simp only []
    rw [show listSplitOnceSpace (pyStripList a) =
        ((listSplitOnceSpace (pyStripList a)).1, none) from
      Prod.ext rfl hrest]

/-- Witness for the amended C6: the malformed-JSON oracle annotates the turn,
and a sentinel line with no argument portion parses to the empty dict. -/
theorem malformed_json_annotated_not_raised_witness :
    process_query_qwen gen_c6 tr_ok st_c2 "请计算" =
      ⟨["解析工具调用时出错: " ++ jsonDecodeErrMsg, "TOOL_CALL: add \x7bbad"], 1, []⟩ ∧
    parse_sentinel_line "TOOL_CALL: ping" = .ok ("ping", .dict []) := by
  have h := malformed_json_annotated_not_raised gen_c6 tr_ok st_c2 "请计算"
    "TOOL_CALL: add \x7bbad" jsonDecodeErrMsg rfl rfl rfl rfl
  exact ⟨h.1, h.2 "TOOL_CALL: ping" [] " ping".toList rfl rfl⟩

/-! ## Claim C5 -/

/-- The qwen oracle of the C5 counterexample: a well-formed sentinel calling
the unregistered tool `foo`. -/
def gen_c5 : GenCall := fun _ => ⟨200, "TOOL_CALL: foo \x7b\x7d", ""⟩

/-- Counterexample for C5 as stated: the dispatch of `foo` fails
(unknown tool, no server registered), the failure is annotated inline — but
only **one** provider call is made: no further model call carrying the failure
as tool-result content ever happens. -/
theorem dispatch_failure_no_followup_counterexample :
    process_query_qwen gen_c5 tr_ok init_client_state "你好" =
      ⟨["解析工具调用时出错: 未找到工具 foo 对应的服务器", "TOOL_CALL: foo \x7b\x7d"],
        1, []⟩ :=
  rfl

/-- Claim C5 (amended): a dispatch failure is caught per-invocation and
converted into an inline annotation appended to the output rather than
aborting the loop or escaping `process_query` — but no follow-up model call is
made for a failed invocation.  Text branch: the turn ends with the annotation
plus the original response text after exactly one provider call.  Native
branch: the number of provider calls is one plus the number of *successfully*
dispatched `tool_use` blocks, and a lone failing `tool_use` block produces
just the inline annotation. -/
theorem dispatch_failure_annotated_inline (gen : GenCall) (provider : AnthropicProvider)
    (tr : Transport) (st : ClientState) (q : String) :
    (∀ line n a err,
      (multi_call_model_qwen gen [⟨"user", q⟩] (get_all_tools st)).status_code = 200 →
      pyContains (multi_call_model_qwen gen [⟨"user", q⟩]
        (get_all_tools st)).content "TOOL_CALL:" = true →
      first_sentinel_line (multi_call_model_qwen gen [⟨"user", q⟩]
        (get_all_tools st)).content = some line →
      parse_sentinel_line line = .ok (n, a) →
      (call_tool tr st n a).1 = .error err →
      process_query_qwen gen tr st q =
        ⟨["解析工具调用时出错: " ++ toolCallErrMsg err,
          (multi_call_model_qwen gen [⟨"user", q⟩] (get_all_tools st)).content],
          1, (call_tool tr st n a).2⟩) ∧
    (process_query_anthropic provider tr st q).provider_calls =
      1 + ((provider [⟨"user", q⟩] (get_all_tools st)).content.filter (dispatch_ok tr st)).length ∧
    (∀ n a err,
      (provider [⟨"user", q⟩] (get_all_tools st)).content = [.tool_use n a] →
      (call_tool tr st n a).1 = .error err →
      process_query_anthropic provider tr st q =
        ⟨["工具调用失败: " ++ toolCallErrMsg err], 1, (call_tool tr st n a).2⟩) := by
  refine ⟨?_, ?_, ?_⟩
  · intro line n a err h200 hcont hline hparse hcall
    simp only [process_query_qwen]
    rw [if_pos h200, if_pos hcont, hline]
    dsimp only
    rw [hparse]
    dsimp only
    rw [hcall]
  · simp only [process_query_anthropic]
    rw [anthropic_fold_calls]
  · intro n a err hcontent hcall
    simp only [process_query_anthropic]
    rw [hcontent, List.foldl_cons, List.foldl_nil,
      anthropic_step_tool_use_error provider tr st (get_all_tools st) _ _ hcall]
    simp

/-- An Anthropic oracle answering with a single `tool_use` of the unregistered
tool `foo`, for the C5 witness. -/
def prov_c5 : AnthropicProvider := fun _ _ => ⟨[.tool_use "foo" (.dict [])]⟩

/-- Witness for the amended C5: the failed dispatch is annotated inline and
exactly one provider call happens, in both branches. -/
theorem dispatch_failure_annotated_inline_witness :
    process_query_qwen gen_c5 tr_ok init_client_state "你好" =
      ⟨["解析工具调用时出错: 未找到工具 foo 对应的服务器", "TOOL_CALL: foo \x7b\x7d"],
        1, []⟩ ∧
    process_query_anthropic prov_c5 tr_ok init_client_state "你好" =
      ⟨["工具调用失败: 未找到工具 foo 对应的服务器"], 1, []⟩ := by
  have h := dispatch_failure_annotated_inline gen_c5 prov_c5 tr_ok init_client_state "你好"
  exact ⟨h.1 "TOOL_CALL: foo \x7b\x7d" "foo" (.dict []) (.unknown_tool "foo")
      rfl rfl rfl rfl rfl,
    h.2.2 "foo" (.dict []) (.unknown_tool "foo") rfl rfl⟩

/-! ## Claim C10 -/

theorem qwen_convert_role_not_tool (marker : String) (messages : List ChatMsg) :
    ∀ m ∈ messages.map (fun m =>
      if m.role = "tool" then ChatMsg.mk "user" (marker ++ m.content) else m),
      m.role ≠ "tool" := by
  intro m hm
  rcases List.mem_map.mp hm with ⟨m0, _, he⟩
  by_cases h : m0.role = "tool"
  · rw [if_pos h] at he
    rw [← he]
    show "user" ≠ "tool"
    decide
  · rw [if_neg h] at he
    rw [← he]
    exact h

theorem qwen_convert_roles (marker : String) (messages : List ChatMsg)
    (hin : ∀ m ∈ messages, m.role = "user" ∨ m.role = "assistant" ∨ m.role = "tool") :
    ∀ m ∈ messages.map (fun m =>
      if m.role = "tool" then ChatMsg.mk "user" (marker ++ m.content) else m),
      m.role = "user" ∨ m.role = "assistant" := by
  intro m hm
  rcases List.mem_map.mp hm with ⟨m0, hm0, he⟩
  by_cases h : m0.role = "tool"
  · rw [if_pos h] at he
    rw [← he]
    left
    rfl
  · rw [if_neg h] at he
    rw [← he]
    rcases hin m0 hm0 with h1 | h1 | h1
    · exact Or.inl h1
    · exact Or.inr h1
    · exact absurd h1 h

theorem place_tools_info_mem (info : String) (qm : List ChatMsg) :
    ∀ m ∈ place_tools_info info qm, m.role = "user" ∨ m ∈ qm := by
  intro m hm
  cases qm with
  | nil =>
    simp only [place_tools_info, List.mem_singleton] at hm
    left
    rw [hm]
  | cons m0 rest =>
    simp only [place_tools_info] at hm
    by_cases h : m0.role = "user"
    · rw [if_pos h] at hm
      rcases List.mem_cons.mp hm with h1 | h1
      · left
        rw [h1]
      · right
        exact List.mem_cons_of_mem _ h1
    · rw [if_neg h] at hm
      rcases List.mem_cons.mp hm with h1 | h1
      · left
        rw [h1]
      · right
        exact h1

/-- Claim C10: both qwen adapters send only `user`/`assistant` roles — never
`tool` (each `tool` transcript message is converted to a `user` message with
the file's tool-result marker prefixed to its content) — and when the tool
catalog is non-empty the serialized tool-instruction block is prepended to the
first sent message when it has role `user`, or inserted as a new first user
message otherwise (including the empty transcript). -/
theorem qwen_adapter_roles_and_tools_info (messages : List ChatMsg) (tools : List ToolEntry) :
    (∀ m ∈ multi_qwen_messages messages tools, m.role ≠ "tool") ∧
    (∀ m ∈ client_qwen_messages messages tools, m.role ≠ "tool") ∧
    ((∀ m ∈ messages, m.role = "user" ∨ m.role = "assistant" ∨ m.role = "tool") →
      (∀ m ∈ multi_qwen_messages messages tools, m.role = "user" ∨ m.role = "assistant") ∧
      (∀ m ∈ client_qwen_messages messages tools, m.role = "user" ∨ m.role = "assistant")) ∧
    (tools = [] → multi_qwen_messages messages tools =
      messages.map (fun m =>
        if m.role = "tool" then ChatMsg.mk "user" ("工具结果: " ++ m.content) else m)) ∧
    (tools ≠ [] →
      (multi_to_qwen_messages messages = [] →
        multi_qwen_messages messages tools = [⟨"user", multi_tools_info tools⟩]) ∧
      (∀ m rest, multi_to_qwen_messages messages = m :: rest → m.role = "user" →
        multi_qwen_messages messages tools =
          ⟨"user", multi_tools_info tools ++ "\n\n" ++ m.content⟩ :: rest) ∧
      (∀ m rest, multi_to_qwen_messages messages = m :: rest → m.role ≠ "user" →
        multi_qwen_messages messages tools =
          ⟨"user", multi_tools_info tools⟩ :: m :: rest)) := by
  have hmulti : ∀ m ∈ multi_qwen_messages messages tools,
      m.role = "user" ∨ m ∈ multi_to_qwen_messages messages := by
    intro m hm
    unfold multi_qwen_messages at hm
    by_cases ht : tools.isEmpty
    · rw [if_pos ht] at hm
      exact Or.inr hm
    · rw [if_neg ht] at hm
      exact place_tools_info_mem _ _ m hm
  have hclient : ∀ m ∈ client_qwen_messages messages tools,
      m.role = "user" ∨ m ∈ client_to_qwen_messages messages := by
    intro m hm
    unfold client_qwen_messages at hm
    by_cases ht : tools.isEmpty
    · rw [if_pos ht] at hm
      exact Or.inr hm
    · rw [if_neg ht] at hm
      exact place_tools_info_mem _ _ m hm
  refine ⟨?_, ?_, ?_, ?_, ?_⟩
  · intro m hm
    rcases hmulti m hm with h | h
    · rw [h]
      decide
    · exact qwen_convert_role_not_tool "工具结果: " messages m h
  · intro m hm
    rcases hclient m hm with h | h
    · rw [h]
      decide
    · exact qwen_convert_role_not_tool "Tool result: " messages m h
  · intro hin
    constructor
    · intro m hm
      rcases hmulti m hm with h | h
      · exact Or.inl h
      · exact qwen_convert_roles "工具结果: " messages hin m h
    · intro m hm
      rcases hclient m hm with h | h
      · exact Or.inl h
      · exact qwen_convert_roles "Tool result: " messages hin m h
  · intro ht
    unfold multi_qwen_messages
    rw [ht]
    rfl
  · intro ht
    have hne : tools.isEmpty = false := by
      cases tools with
      | nil => exact absurd rfl ht
      | cons a l => rfl
    refine ⟨?_, ?_, ?_⟩
    · intro hq
      unfold multi_qwen_messages
      rw [if_neg (by rw [hne]; exact Bool.false_ne_true), hq]
      rfl
    · intro m rest hq hrole
      unfold multi_qwen_messages
      rw [if_neg (by rw [hne]; exact Bool.false_ne_true), hq]
      unfold place_tools_info
      dsimp only
      rw [if_pos hrole]
    · intro m rest hq hrole
      unfold multi_qwen_messages
      rw [if_neg (by rw [hne]; exact Bool.false_ne_true), hq]
      unfold place_tools_info
      dsimp only
      rw [if_neg hrole]

/-- A transcript exercising all three roles, for the C10 witness. -/
def msgs_c10 : List ChatMsg :=
  [⟨"user", "算一下"⟩, ⟨"assistant", "TOOL_CALL: add \x7b\x7d"⟩, ⟨"tool", "3"⟩]

/-- Witness for C10: on a user/assistant/tool transcript with a non-empty
catalog, every sent message has role `user` or `assistant`. -/
theorem qwen_adapter_roles_and_tools_info_witness :
    (∀ m ∈ multi_qwen_messages msgs_c10 [tool_c2],
      m.role = "user" ∨ m.role = "assistant") ∧
    (∀ m ∈ client_qwen_messages msgs_c10 [tool_c2],
      m.role = "user" ∨ m.role = "assistant") :=
  (qwen_adapter_roles_and_tools_info msgs_c10 [tool_c2]).2.2.1 (by decide)

end MCP

